import Mathlib

/-!
Verification of the sequence-combinator library (aoc_helper/utils.py).

The wrapper class `iter` holds a single-pass Python iterator.  We embed a
wrapper's state as the Lean list of the elements its underlying iterator
would still yield, in order.  Consuming operations are state transformers
returning both an outcome (`Except PyErr _`, since several operations raise)
and the new state.  Lazy transformation methods are embedded by the sequence
their result would yield when collected.
-/

set_option autoImplicit false

universe u v

/-- Concrete Python exception classes raised by the code under test. -/
inductive PyErr : Type where
  | stopIteration
  | typeError
  | indexError
  | runtimeError
  | valueError
deriving DecidableEq, Repr

namespace AocIter

variable {α : Type u} {β : Type v}

/-- Embedding of iter.next (utils.py line 158): return `next(self.it)`, which
yields the first remaining element or raises StopIteration when the
underlying iterator is exhausted. -/
def nextEl : List α → Except PyErr (α × List α)
  | [] => Except.error PyErr.stopIteration
  | a :: l => Except.ok (a, l)

/-- Embedding of iter.skip (utils.py line 162): call `self.next()` once per
step of `range(n)` (`n.toNat` iterations, since `range` of a non-positive
bound is empty), discarding results.  A StopIteration raised by `next`
propagates out of the plain `for` loop unchanged; every element pulled before
the failure stays consumed. -/
def skipAux : Nat → List α → Except PyErr Unit × List α
  | 0, l => (Except.ok (), l)
  | _ + 1, [] => (Except.error PyErr.stopIteration, [])
  | n + 1, _ :: l => skipAux n l

/-- skip with the Python signature: the count is an int, and `range n` runs
`n.toNat` times. -/
def skipRun (n : Int) (l : List α) : Except PyErr Unit × List α :=
  skipAux n.toNat l

/-- Embedding of iter.take (utils.py line 180):
`tuple(self.next() for _ in builtins.range(n))`.  The generator expression is
a generator frame, so a StopIteration raised by `self.next()` inside it is
replaced by RuntimeError (PEP 479, mandatory since Python 3.7) before it
reaches `tuple`.  Elements pulled before the failure remain consumed. -/
def takeAux : Nat → List α → Except PyErr (List α) × List α
  | 0, l => (Except.ok [], l)
  | _ + 1, [] => (Except.error PyErr.runtimeError, [])
  | n + 1, a :: l =>
    match takeAux n l with
    | (Except.ok t, r) => (Except.ok (a :: t), r)
    | (Except.error e, r) => (Except.error e, r)

/-- take with the Python signature (int count, `range n` iterates `n.toNat`
times). -/
def takeRun (n : Int) (l : List α) : Except PyErr (List α) × List α :=
  takeAux n.toNat l

/-- Helper for the free function chunk (utils.py line 21): the semantics of
`zip` applied to `size` references to one shared iterator.  Each output round
pulls `size = n + 1` consecutive elements (one per argument slot, left to
right); `zip` stops at the first slot whose pull raises StopIteration, never
yielding a partial round, so a final incomplete group is dropped.  The index
is the group size minus one so that every recursive call drops at least one
element. -/
def chunkAux (n : Nat) (l : List α) : List (List α) :=
  if n + 1 ≤ l.length then
    l.take (n + 1) :: chunkAux n (l.drop (n + 1))
  else []
termination_by l.length
decreasing_by
  simp only [List.length_drop]
  omega

/-- Embedding of the free function chunk (utils.py line 21):
`zip(*[builtins.iter(iterable)] * chunk_size)`.  When `chunk_size ≤ 0` the
argument list `[it] * chunk_size` is empty and `zip()` is an empty iterator:
no error is raised and no group is produced. -/
def chunk (l : List α) (chunk_size : Int) : List (List α) :=
  if chunk_size ≤ 0 then [] else chunkAux (chunk_size.toNat - 1) l

/-- Helper for chunk_default (utils.py line 32): the semantics of
`itertools.zip_longest` applied to `size = n + 1` references to one shared
iterator with a fill value.  A round that begins with the shared iterator
exhausted only decrements the active count down to zero and stops without
yielding; a round that pulls at least one real element fills the slots after
exhaustion with the default, so the group is the next `n + 1` elements padded
with the default up to size `n + 1`. -/
def chunkDefaultAux (d : α) (n : Nat) : List α → List (List α)
  | [] => []
  | a :: l =>
    ((a :: l).take (n + 1) ++ List.replicate ((n + 1) - (a :: l).length) d)
      :: chunkDefaultAux d n ((a :: l).drop (n + 1))
termination_by l => l.length
decreasing_by
  simp only [List.drop_succ_cons, List.length_drop, List.length_cons]
  omega

/-- Embedding of the free function chunk_default (utils.py line 32):
`itertools.zip_longest(*[builtins.iter(iterable)] * chunk_size, fillvalue=default)`.
When `chunk_size ≤ 0` there is no argument iterator and `zip_longest` is an
empty iterator: no error is raised and no group is produced. -/
def chunk_default (l : List α) (chunk_size : Int) (d : α) : List (List α) :=
  if chunk_size ≤ 0 then [] else chunkDefaultAux d (chunk_size.toNat - 1) l

/-- Since chunk and chunk_default return plain iterators that never raise,
collecting them is always an ok result; this wrapper makes the absence of an
error channel explicit for comparison with operations that do raise. -/
def chunkCollect (l : List α) (chunk_size : Int) : Except PyErr (List (List α)) :=
  Except.ok (chunk l chunk_size)

/-- Collecting chunk_default, with the (empty) error channel explicit. -/
def chunkDefaultCollect (l : List α) (chunk_size : Int) (d : α) :
    Except PyErr (List (List α)) :=
  Except.ok (chunk_default l chunk_size d)

/-- Helper for iter._window (utils.py lines 146-149): the loop
`for el in self: elements.popleft(); elements.append(el); yield tuple(elements)`.
The first argument is the deque contents, the second the elements the
underlying iterator still yields.  `popleft` on an empty deque raises
IndexError, which propagates out of the generator when it is driven. -/
def slideAux : List α → List α → Except PyErr (List (List α))
  | _, [] => Except.ok []
  | dq, el :: rest =>
    match dq with
    | [] => Except.error PyErr.indexError
    | _ :: dqTail =>
      (slideAux (dqTail ++ [el]) rest).map (fun ws => (dqTail ++ [el]) :: ws)

/-- Embedding of collecting iter._window / iter.window (utils.py lines
134-156).  The seeding loop `for _ in range(window_size)` appends
`self.next()` to the deque `window_size.toNat` times; if a StopIteration
occurs during seeding the generator returns (empty result, error caught).
Otherwise it yields the seeded tuple and then slides via `slideAux`.
Calling `window` itself merely builds the generator; this function is what
driving the returned wrapper to completion produces. -/
def windowCollect (l : List α) (window_size : Int) : Except PyErr (List (List α)) :=
  if l.length < window_size.toNat then Except.ok []
  else
    (slideAux (l.take window_size.toNat) (l.drop window_size.toNat)).map
      (fun ws => l.take window_size.toNat :: ws)

/-- Embedding of functools.reduce with no initial value, as called by
iter.reduce (utils.py line 86) when `initial` is the sentinel: the left fold
seeded with the first element, raising TypeError (reduce of empty iterable
with no initial value) when the iterator is already exhausted. -/
def reduceNoInit (f : α → α → α) : List α → Except PyErr α
  | [] => Except.error PyErr.typeError
  | a :: l => Except.ok (l.foldl f a)

/-- Embedding of functools.reduce with an initial value, as called by
iter.reduce (utils.py line 87): a plain left fold from `init`; on an empty
iterator it returns `init` unmodified. -/
def reduceInit (f : β → α → β) (l : List α) (init : β) : β :=
  l.foldl f init

/-- The two kinds of Python object that reach itertools.accumulate in the
wrapper code: an iterable of elements, or a binary-function object (a
function object is not iterable, and an iterable is not callable). -/
inductive PyObj (α : Type u) : Type u where
  | pyIterable (l : List α)
  | pyCallable (f : α → α → α)

/-- The running-accumulation loop of itertools.accumulate with no initial
value: the first element is yielded as is, then each subsequent yield applies
the function to the previous yield and the next element. -/
def accLoop (f : α → α → α) : α → List α → List α
  | _, [] => []
  | acc, b :: l => f acc b :: accLoop f (f acc b) l

/-- Embedding of collecting `itertools.accumulate(iterable, function)` under
Python dynamic typing.  The first parameter is the iterable: passing a
function object there raises TypeError at the accumulate call itself.  With
an iterable first and a callable second it yields the running fold whose
first value is the first element.  With a non-callable second argument it
yields the first element and raises TypeError when the function is first
applied, i.e. when a second element exists. -/
def itertoolsAccumulate (iterable : PyObj α) (function : PyObj α) :
    Except PyErr (List α) :=
  match iterable with
  | PyObj.pyCallable _ => Except.error PyErr.typeError
  | PyObj.pyIterable l =>
    match function with
    | PyObj.pyCallable f =>
      match l with
      | [] => Except.ok []
      | a :: rest => Except.ok (a :: accLoop f a rest)
    | PyObj.pyIterable _ =>
      match l with
      | [] => Except.ok []
      | [a] => Except.ok [a]
      | _ :: _ :: _ => Except.error PyErr.typeError

/-- Embedding of iter.accumulate with no initial value (utils.py line 112):
the source reads `itertools.accumulate(func, self)`, passing the function
object in the iterable position and the wrapper in the function position. -/
def iterAccumulate (l : List α) (f : α → α → α) : Except PyErr (List α) :=
  itertoolsAccumulate (PyObj.pyCallable f) (PyObj.pyIterable l)

/-- A Python object's support for the protocols consulted by
builtins.reversed: an optional result of calling a defined dunder reversed
method, and an optional materialized sequence for objects implementing both
dunder len and dunder getitem. -/
structure ReversibleView (α : Type u) : Type u where
  dunderReversed : Option (List α)
  seqProtocol : Option (List α)

/-- Embedding of builtins.reversed: it uses the argument's dunder reversed
method if defined, falls back to the sequence protocol (walking indices
len-1 down to 0), and otherwise raises TypeError (argument is not
reversible). -/
def builtinsReversed (o : ReversibleView α) : Except PyErr (List α) :=
  match o.dunderReversed with
  | some r => Except.ok r
  | none =>
    match o.seqProtocol with
    | some s => Except.ok s.reverse
    | none => Except.error PyErr.typeError

/-- The protocol view of a wrapper instance (utils.py class iter): the class
defines only dunder init, dunder iter and the listed methods — neither a
dunder reversed method nor the dunder len / dunder getitem pair — so both
protocol slots are empty regardless of the wrapped iterator's remaining
elements. -/
def iterView (_ : List α) : ReversibleView α :=
  { dunderReversed := none, seqProtocol := none }

/-- Embedding of iter.reversed (utils.py line 228): `reversed(self)` applies
builtins.reversed to the wrapper instance itself. -/
def iterReversed (l : List α) : Except PyErr (List α) :=
  builtinsReversed (iterView l)

/-- Stable insertion of an element into a sorted list: the new element goes
after every element less than or equal to it that it does not precede. -/
def insertLe (a : Int) : List Int → List Int
  | [] => [a]
  | b :: l => if b ≤ a then b :: insertLe a l else a :: b :: l

/-- Embedding of the materialized result of iter.sorted with no key and
`reverse=False` (utils.py line 222) over integer elements: Python's sorted
builtin, a stable ascending sort, modelled as stable insertion sort. -/
def sortedAsc : List Int → List Int
  | [] => []
  | a :: l => insertLe a (sortedAsc l)

/-- Embedding of collecting `iter(P).sorted().reversed()` (utils.py lines
214-228): sorted materializes and sorts the remaining elements into a new
wrapper, and reversed then applies builtins.reversed to that wrapper
instance. -/
def sortedThenReversed (l : List Int) : Except PyErr (List Int) :=
  builtinsReversed (iterView (sortedAsc l))

/-- State of the two branches of itertools.tee (utils.py line 246, `n = 2`):
the elements the shared source iterator still yields, and each branch's FIFO
buffer of elements already pulled from the source by the other branch but
not yet consumed by this one. -/
structure TeeState (α : Type u) : Type u where
  src : List α
  buf1 : List α
  buf2 : List α

/-- The tee state immediately after `tee` is called: nothing buffered. -/
def teeInit (l : List α) : TeeState α :=
  { src := l, buf1 := [], buf2 := [] }

/-- One pull on tee branch 1: serve from its own buffer if nonempty,
otherwise advance the shared source and append the element to the other
branch's buffer; exhausted when both its buffer and the source are empty. -/
def teeNext1 : TeeState α → Option (α × TeeState α)
  | { src := src, buf1 := a :: b1, buf2 := b2 } =>
    some (a, { src := src, buf1 := b1, buf2 := b2 })
  | { src := [], buf1 := [], buf2 := _ } => none
  | { src := a :: s, buf1 := [], buf2 := b2 } =>
    some (a, { src := s, buf1 := [], buf2 := b2 ++ [a] })

/-- One pull on tee branch 2, symmetric to `teeNext1`. -/
def teeNext2 : TeeState α → Option (α × TeeState α)
  | { src := src, buf1 := b1, buf2 := a :: b2 } =>
    some (a, { src := src, buf1 := b1, buf2 := b2 })
  | { src := [], buf1 := _, buf2 := [] } => none
  | { src := a :: s, buf1 := b1, buf2 := [] } =>
    some (a, { src := s, buf1 := b1 ++ [a], buf2 := [] })

/-- Drive the tee pair through an arbitrary interleaving: each schedule entry
pulls once on branch 1 (`true`) or branch 2 (`false`); a pull on an
exhausted branch is a no-op (its StopIteration ends that consumer's loop).
Returns the elements each branch yielded, in order, and the final state. -/
def teeRun : List Bool → TeeState α → List α × List α × TeeState α
  | [], st => ([], [], st)
  | true :: sch, st =>
    match teeNext1 st with
    | none => teeRun sch st
    | some (a, st') =>
      ((a :: (teeRun sch st').1, (teeRun sch st').2.1, (teeRun sch st').2.2))
  | false :: sch, st =>
    match teeNext2 st with
    | none => teeRun sch st
    | some (a, st') =>
      (((teeRun sch st').1, a :: (teeRun sch st').2.1, (teeRun sch st').2.2))

/-- The elements branch 1 would still yield from a tee state: its buffer,
then the rest of the shared source. -/
def drain1 (st : TeeState α) : List α :=
  st.buf1 ++ st.src

/-- The elements branch 2 would still yield from a tee state. -/
def drain2 (st : TeeState α) : List α :=
  st.buf2 ++ st.src

end AocIter

namespace AocIter

variable {α : Type u} {β : Type v}

/-- Helper: a take of more elements than remain consumes everything and ends
in RuntimeError. -/
theorem takeAux_exhaust :
    ∀ (n : Nat) (l : List α), l.length < n →
      takeAux n l = (Except.error PyErr.runtimeError, ([] : List α)) := by
  intro n
  induction n with
  | zero => intro l h; exact absurd h (Nat.not_lt_zero _)
  | succ n ih =>
    intro l h
    cases l with
    | nil => rfl
    | cons a t =>
      have ht : t.length < n := by simpa using h
      simp [takeAux, ih t ht]

/-- Helper: a skip of more elements than remain consumes everything and ends
in StopIteration. -/
theorem skipAux_exhaust :
    ∀ (n : Nat) (l : List α), l.length < n →
      skipAux n l = (Except.error PyErr.stopIteration, ([] : List α)) := by
  intro n
  induction n with
  | zero => intro l h; exact absurd h (Nat.not_lt_zero _)
  | succ n ih =>
    intro l h
    cases l with
    | nil => rfl
    | cons a t =>
      have ht : t.length < n := by simpa using h
      simpa [skipAux] using ih t ht

/-- C1: the spec says accumulate with the default function and no initial
value on [1,2,3] yields the running sums [1,3,6].  The code instead passes
the function object in the iterable position of itertools.accumulate
(`itertools.accumulate(func, self)`), so the call raises TypeError; with the
arguments in the documented order the same itertools.accumulate would indeed
yield [1,3,6], matching the method's own docstring. -/
theorem c1_accumulate_default_raises :
    iterAccumulate ([1, 2, 3] : List Int) (· + ·) = Except.error PyErr.typeError ∧
    itertoolsAccumulate (PyObj.pyIterable ([1, 2, 3] : List Int))
        (PyObj.pyCallable (· + ·)) = Except.ok [1, 3, 6] :=
  ⟨rfl, rfl⟩

/-- C2 counterexample: the claim says chunk and chunk_default with a
non-positive size signal a precondition-violation error immediately; in the
code `[iter(iterable)] * size` is the empty argument list for any size ≤ 0,
so collecting returns an ok empty result and no error is ever signaled. -/
theorem c2_counterexample :
    chunkCollect ([1, 2, 3] : List Int) 0 = Except.ok [] ∧
    chunkDefaultCollect ([1, 2, 3] : List Int) 0 (0 : Int) = Except.ok [] :=
  ⟨rfl, rfl⟩

/-- C2 amended: for every producer, chunk and chunk_default called with a
non-positive size signal no error and yield an empty sequence of groups, and
window called with a non-positive size signals no error at the call site:
collecting it yields a single empty group on an empty producer and raises
IndexError (from popleft on the empty deque) on a nonempty one. -/
theorem c2_nonpositive_size (α : Type u) (l : List α) (d : α) (n : Int)
    (h : n ≤ 0) :
    chunkCollect l n = Except.ok [] ∧
    chunkDefaultCollect l n d = Except.ok [] ∧
    windowCollect l n =
      (if l.isEmpty then Except.ok [[]] else Except.error PyErr.indexError) := by
  have hk : n.toNat = 0 := Int.toNat_of_nonpos h
  refine ⟨?_, ?_, ?_⟩
  · simp [chunkCollect, chunk, h]
  · simp [chunkDefaultCollect, chunk_default, h]
  · cases l with
    | nil => simp [windowCollect, hk, slideAux, Except.map]
    | cons a t => simp [windowCollect, hk, slideAux, Except.map]

/-- C2 witness: the amended statement at the producer [1,2,3] and size -1. -/
theorem c2_nonpositive_size_witness :
    (-1 : Int) ≤ 0 ∧
    (chunkCollect ([1, 2, 3] : List Int) (-1) = Except.ok [] ∧
     chunkDefaultCollect ([1, 2, 3] : List Int) (-1) (0 : Int) = Except.ok [] ∧
     windowCollect ([1, 2, 3] : List Int) (-1) =
       (if ([1, 2, 3] : List Int).isEmpty then Except.ok [[]]
        else Except.error PyErr.indexError)) :=
  ⟨by decide, c2_nonpositive_size Int [1, 2, 3] 0 (-1) (by decide)⟩

/-- C3: the spec says sorted then reversed yields the reverse of the sorted
ascending output, and that reversed materializes and yields in reverse
order.  The code applies builtins.reversed to the wrapper instance itself,
which defines neither a dunder reversed method nor the sequence protocol, so
every reversed call — in particular after sorted — raises TypeError instead
of yielding anything, contradicting the method's own docstring. -/
theorem c3_reversed_raises :
    (∀ l : List Int, sortedThenReversed l = Except.error PyErr.typeError) ∧
    (∀ (γ : Type) (l : List γ), iterReversed l = Except.error PyErr.typeError) :=
  ⟨fun _ => rfl, fun _ _ => rfl⟩

/-- C7: the spec says take fails on underflow with the same failure kind as
next.  The code's `tuple(self.next() for _ in range(n))` wraps the pulls in
a generator expression, so the StopIteration raised by next is replaced with
RuntimeError (PEP 479) — a different exception class from the StopIteration
that next itself raises, contradicting take's docstring, which promises
StopIteration. -/
theorem c7_take_error_kind :
    (takeRun 3 ([1, 2] : List Int)).1 = Except.error PyErr.runtimeError ∧
    nextEl ([] : List Int) = Except.error PyErr.stopIteration ∧
    PyErr.runtimeError ≠ PyErr.stopIteration := by
  refine ⟨rfl, rfl, by decide⟩

/-- C8: reduce with a function and no initial value left-folds the remaining
elements (reduce([1,2,3,4], add) = 10) and errors on an exhausted wrapper
(the failure functools.reduce raises on an empty iterable with no initial
value, the underflow failure the spec calls exhaustion); reduce with an
initial value returns the initial value unmodified on an empty wrapper
(reduce([], add, 0) = 0). -/
theorem c8_reduce_spec :
    (∀ (f : Int → Int → Int) (a : Int) (l : List Int),
        reduceNoInit f (a :: l) = Except.ok (l.foldl f a)) ∧
    (∀ f : Int → Int → Int,
        reduceNoInit f ([] : List Int) = Except.error PyErr.typeError) ∧
    (∀ (f : Int → Int → Int) (b : Int), reduceInit f ([] : List Int) b = b) ∧
    reduceNoInit (· + ·) ([1, 2, 3, 4] : List Int) = Except.ok 10 ∧
    reduceInit (· + ·) ([] : List Int) (0 : Int) = 0 :=
  ⟨fun _ _ _ => rfl, fun _ => rfl, fun _ _ => rfl, rfl, rfl⟩

/-- Helper: sliding a full deque of k elements over the remaining elements
yields, for each j below the number of remaining elements, the k-element
contiguous slice of the whole sequence starting at position j + 1. -/
theorem slideAux_spec (k : Nat) (hk : 1 ≤ k) :
    ∀ (rest dq : List α), dq.length = k →
      slideAux dq rest = Except.ok ((List.range rest.length).map
        (fun j => ((dq ++ rest).drop (j + 1)).take k)) := by
  intro rest
  induction rest with
  | nil => intro dq _; simp [slideAux]
  | cons e r ih =>
    intro dq hlen
    cases dq with
    | nil => simp at hlen; omega
    | cons d dt =>
      have hdt : dt.length + 1 = k := by simpa using hlen
      have hdq' : (dt ++ [e]).length = k := by simp; omega
      rw [slideAux, ih (dt ++ [e]) hdq']
      simp only [Except.map, List.length_cons]
      rw [List.range_succ_eq_map, List.map_cons, List.map_map]
      have h1 : dt.take k = dt := List.take_of_length_le (by omega)
      have h3 : k - dt.length = 1 := by omega
      simp [List.take_append_eq_append_take, h1, h3, Function.comp,
        List.append_assoc]

/-- C4: for every finite producer P and every n at least one, collecting
window(P, n) yields, without error, the empty sequence when fewer than n
elements exist, and otherwise exactly len(P) - n + 1 groups whose i-th
member is the contiguous slice of P from index i to i + n (the mapped range
below is empty exactly when len(P) < n, and otherwise group i is
`(l.drop i).take n`, the overlapping windows advancing by one). -/
theorem c4_window_spec (α : Type u) (l : List α) (n : Int) (hn : 1 ≤ n) :
    windowCollect l n =
      Except.ok ((List.range (l.length + 1 - n.toNat)).map
        (fun i => (l.drop i).take n.toNat)) := by
  have hk : 1 ≤ n.toNat := by omega
  rw [windowCollect]
  by_cases h : l.length < n.toNat
  · rw [if_pos h]
    have h0 : l.length + 1 - n.toNat = 0 := by omega
    rw [h0]
    simp
  · rw [if_neg h]
    push_neg at h
    rw [slideAux_spec n.toNat hk (l.drop n.toNat) (l.take n.toNat)
      (by simp [List.length_take]; omega)]
    simp only [Except.map, List.take_append_drop, List.length_drop]
    have h2 : l.length + 1 - n.toNat = (l.length - n.toNat) + 1 := by omega
    rw [h2, List.range_succ_eq_map, List.map_cons, List.map_map]
    simp [Function.comp]

/-- C4 witness: the spec scenarios window([1,2,3], 2) = [(1,2),(2,3)] and
window([1,2,3], 4) = [] (no error in either case). -/
theorem c4_window_spec_witness :
    (1 : Int) ≤ 2 ∧ (1 : Int) ≤ 4 ∧
    windowCollect ([1, 2, 3] : List Int) 2 = Except.ok [[1, 2], [2, 3]] ∧
    windowCollect ([1, 2, 3] : List Int) 4 = Except.ok [] := by
  refine ⟨by decide, by decide, ?_, ?_⟩
  · rw [c4_window_spec Int [1, 2, 3] 2 (by decide)]
    rfl
  · rw [c4_window_spec Int [1, 2, 3] 4 (by decide)]
    rfl

/-- Helper: with group size n + 1, zip-based chunking yields exactly
floor(len / (n+1)) groups, each of size n + 1, whose concatenation is the
first (n+1) * floor(len / (n+1)) elements of the input in order. -/
theorem chunkAux_spec (n : Nat) (l : List α) :
    (chunkAux n l).length = l.length / (n + 1) ∧
    (∀ g ∈ chunkAux n l, g.length = n + 1) ∧
    (chunkAux n l).flatten = l.take ((n + 1) * (l.length / (n + 1))) := by
  induction l using chunkAux.induct n with
  | case1 l h ih =>
    obtain ⟨ih1, ih2, ih3⟩ := ih
    have heq : chunkAux n l = l.take (n + 1) :: chunkAux n (l.drop (n + 1)) := by
      rw [chunkAux, if_pos h]
    have hdiv : l.length / (n + 1) = (l.length - (n + 1)) / (n + 1) + 1 :=
      Nat.div_eq_sub_div (Nat.succ_pos n) h
    refine ⟨?_, ?_, ?_⟩
    · rw [heq, List.length_cons, ih1, List.length_drop, hdiv]
    · intro g hg
      rw [heq] at hg
      rcases List.mem_cons.mp hg with hg | hg
      · rw [hg, List.length_take]
        omega
      · exact ih2 g hg
    · rw [List.length_drop] at ih3
      rw [heq, List.flatten_cons, ih3, hdiv]
      have hm : (n + 1) * ((l.length - (n + 1)) / (n + 1) + 1)
          = (n + 1) + (n + 1) * ((l.length - (n + 1)) / (n + 1)) := by ring
      rw [hm]
      conv_rhs => rw [List.take_add]
  | case2 l h =>
    have hlt : l.length < n + 1 := by omega
    have heq : chunkAux n l = [] := by
      rw [chunkAux, if_neg h]
    rw [heq]
    simp [Nat.div_eq_of_lt hlt]

/-- C5: for every finite producer P and size n at least one, collecting
chunk(P, n) yields exactly floor(len(P)/n) groups each of size n, and
concatenating the groups in order reproduces the first n * floor(len(P)/n)
elements of P (the trailing incomplete group is dropped). -/
theorem c5_chunk_spec (α : Type u) (l : List α) (n : Int) (hn : 1 ≤ n) :
    (chunk l n).length = l.length / n.toNat ∧
    (∀ g ∈ chunk l n, g.length = n.toNat) ∧
    (chunk l n).flatten = l.take (n.toNat * (l.length / n.toNat)) := by
  have h0 : ¬ n ≤ 0 := by omega
  have hk : n.toNat - 1 + 1 = n.toNat := by omega
  rw [chunk, if_neg h0]
  have hspec := chunkAux_spec (n.toNat - 1) l
  rw [hk] at hspec
  exact hspec

/-- C5 witness: the spec scenario chunk([1,2,3,4,5], 2) = [(1,2),(3,4)],
with the general length and concatenation facts instantiated there. -/
theorem c5_chunk_spec_witness :
    (1 : Int) ≤ 2 ∧
    chunk ([1, 2, 3, 4, 5] : List Int) 2 = [[1, 2], [3, 4]] ∧
    (chunk ([1, 2, 3, 4, 5] : List Int) 2).length = 5 / 2 ∧
    (chunk ([1, 2, 3, 4, 5] : List Int) 2).flatten =
      ([1, 2, 3, 4, 5] : List Int).take (2 * (5 / 2)) := by
  refine ⟨by decide, ?_, ?_, ?_⟩
  · rw [chunk, if_neg (by decide)]
    show chunkAux 1 ([1, 2, 3, 4, 5] : List Int) = [[1, 2], [3, 4]]
    rw [chunkAux.eq_def]
    norm_num
    rw [chunkAux.eq_def]
    norm_num
    rw [chunkAux.eq_def]
    norm_num
  · exact (c5_chunk_spec Int [1, 2, 3, 4, 5] 2 (by decide)).1
  · exact (c5_chunk_spec Int [1, 2, 3, 4, 5] 2 (by decide)).2.2

/-- Helper: with group size n + 1 and fill value d, zip_longest based
chunking yields exactly ceil(len / (n+1)) groups, each of size n + 1, whose
concatenation is the whole input in order followed by copies of d. -/
theorem chunkDefaultAux_spec (d : α) (n : Nat) (l : List α) :
    (chunkDefaultAux d n l).length = (l.length + n) / (n + 1) ∧
    (∀ g ∈ chunkDefaultAux d n l, g.length = n + 1) ∧
    (chunkDefaultAux d n l).flatten =
      l ++ List.replicate ((n + 1) * ((l.length + n) / (n + 1)) - l.length) d := by
  induction l using chunkDefaultAux.induct d n with
  | case1 =>
    simp [chunkDefaultAux, Nat.div_eq_of_lt (by omega : n < n + 1)]
  | case2 a l ih =>
    rw [List.drop_succ_cons] at ih
    obtain ⟨ih1, ih2, ih3⟩ := ih
    have hstep : ((a :: l).length + n) / (n + 1)
        = ((l.drop n).length + n) / (n + 1) + 1 := by
      rw [List.length_drop, List.length_cons,
        Nat.div_eq_sub_div (by omega) (by omega : n + 1 ≤ l.length + 1 + n)]
      have hnum : l.length + 1 + n - (n + 1) = l.length := by omega
      rw [hnum]
      rcases le_or_lt n l.length with h | h
      · have h1 : l.length - n + n = l.length := by omega
        rw [h1]
      · have h1 : l.length - n = 0 := by omega
        rw [h1, Nat.div_eq_of_lt (by omega : l.length < n + 1),
          Nat.div_eq_of_lt (by omega : 0 + n < n + 1)]
    refine ⟨?_, ?_, ?_⟩
    · rw [chunkDefaultAux.eq_2, List.length_cons, List.drop_succ_cons, ih1,
        hstep]
    · intro g hg
      rw [chunkDefaultAux.eq_2] at hg
      rcases List.mem_cons.mp hg with hg | hg
      · rw [hg]
        simp only [List.length_append, List.length_take,
          List.length_replicate, List.length_cons]
        omega
      · rw [List.drop_succ_cons] at hg
        exact ih2 g hg
    · rw [chunkDefaultAux.eq_2, List.flatten_cons, List.drop_succ_cons, ih3,
        hstep]
      rcases le_or_lt n l.length with h | h
      · have hrep0 : n + 1 - (a :: l).length = 0 := by
          simp only [List.length_cons]
          omega
        have hgen : (n + 1) * (((l.drop n).length + n) / (n + 1) + 1)
              - (a :: l).length
            = (n + 1) * (((l.drop n).length + n) / (n + 1))
              - (l.drop n).length := by
          rw [Nat.mul_succ]
          generalize (n + 1) * (((l.drop n).length + n) / (n + 1)) = A
          simp only [List.length_drop, List.length_cons]
          omega
        rw [hrep0, hgen, List.replicate_zero, List.append_nil,
          List.take_succ_cons, List.cons_append, List.cons_append,
          ← List.append_assoc, List.take_append_drop]
      · have hdrop : l.drop n = [] := List.drop_eq_nil_of_le (by omega)
        rw [hdrop]
        have hq : ((List.nil : List α).length + n) / (n + 1) = 0 := by
          simp [Nat.div_eq_of_lt (by omega : n < n + 1)]
        rw [hq]
        have htake : (a :: l).take (n + 1) = a :: l :=
          List.take_of_length_le (by simp; omega)
        have hcount : n + 1 - (a :: l).length
            = (n + 1) * (0 + 1) - (a :: l).length := by
          simp
        rw [htake]
        simp [hcount]

/-- C6: for every finite producer P, size n at least one and fill value d,
collecting chunk_default(P, n, d) yields exactly ceil(len(P)/n) groups each
of size n, and the concatenation of the groups is P itself followed only by
copies of d (so every padding element equals the default). -/
theorem c6_chunk_default_spec (α : Type u) (l : List α) (n : Int) (d : α)
    (hn : 1 ≤ n) :
    (chunk_default l n d).length = (l.length + n.toNat - 1) / n.toNat ∧
    (∀ g ∈ chunk_default l n d, g.length = n.toNat) ∧
    (chunk_default l n d).flatten =
      l ++ List.replicate
        (n.toNat * ((l.length + n.toNat - 1) / n.toNat) - l.length) d := by
  have h0 : ¬ n ≤ 0 := by omega
  have hk : n.toNat - 1 + 1 = n.toNat := by omega
  have hk2 : l.length + (n.toNat - 1) = l.length + n.toNat - 1 := by omega
  rw [chunk_default, if_neg h0]
  have hspec := chunkDefaultAux_spec d (n.toNat - 1) l
  rw [hk, hk2] at hspec
  exact hspec

/-- C6 witness: the spec scenario chunk_default([1,2,3,4,5], 2, 0) =
[(1,2),(3,4),(5,0)], with the general facts instantiated there. -/
theorem c6_chunk_default_spec_witness :
    (1 : Int) ≤ 2 ∧
    chunk_default ([1, 2, 3, 4, 5] : List Int) 2 0 =
      [[1, 2], [3, 4], [5, 0]] ∧
    (chunk_default ([1, 2, 3, 4, 5] : List Int) 2 0).length = (5 + 2 - 1) / 2 ∧
    (chunk_default ([1, 2, 3, 4, 5] : List Int) 2 0).flatten =
      ([1, 2, 3, 4, 5] : List Int) ++
        List.replicate (2 * ((5 + 2 - 1) / 2) - 5) (0 : Int) := by
  refine ⟨by decide, ?_, ?_, ?_⟩
  · rw [chunk_default, if_neg (by decide)]
    show chunkDefaultAux (0 : Int) 1 [1, 2, 3, 4, 5] = [[1, 2], [3, 4], [5, 0]]
    simp [chunkDefaultAux]
  · exact (c6_chunk_default_spec Int [1, 2, 3, 4, 5] 2 0 (by decide)).1
  · exact (c6_chunk_default_spec Int [1, 2, 3, 4, 5] 2 0 (by decide)).2.2

/-- Helper: one successful pull on tee branch 1 removes the yielded element
from the front of what branch 1 would still yield and leaves branch 2's view
unchanged. -/
theorem teeNext1_drain :
    ∀ (st : TeeState α) (a : α) (st' : TeeState α),
      teeNext1 st = some (a, st') →
      a :: drain1 st' = drain1 st ∧ drain2 st' = drain2 st := by
  intro st a st' h
  rcases st with ⟨src, b1, b2⟩
  cases b1 with
  | cons x b1' =>
    simp only [teeNext1, Option.some.injEq, Prod.mk.injEq] at h
    obtain ⟨h1, h2⟩ := h
    subst h1
    subst h2
    simp [drain1, drain2]
  | nil =>
    cases src with
    | nil => simp [teeNext1] at h
    | cons y s =>
      simp only [teeNext1, Option.some.injEq, Prod.mk.injEq] at h
      obtain ⟨h1, h2⟩ := h
      subst h1
      subst h2
      simp [drain1, drain2]

/-- Helper: one successful pull on tee branch 2, symmetric to
`teeNext1_drain`. -/
theorem teeNext2_drain :
    ∀ (st : TeeState α) (a : α) (st' : TeeState α),
      teeNext2 st = some (a, st') →
      a :: drain2 st' = drain2 st ∧ drain1 st' = drain1 st := by
  intro st a st' h
  rcases st with ⟨src, b1, b2⟩
  cases b2 with
  | cons x b2' =>
    simp only [teeNext2, Option.some.injEq, Prod.mk.injEq] at h
    obtain ⟨h1, h2⟩ := h
    subst h1
    subst h2
    simp [drain1, drain2]
  | nil =>
    cases src with
    | nil => simp [teeNext2] at h
    | cons y s =>
      simp only [teeNext2, Option.some.injEq, Prod.mk.injEq] at h
      obtain ⟨h1, h2⟩ := h
      subst h1
      subst h2
      simp [drain1, drain2]

/-- Helper: for any schedule, the elements a branch has yielded so far,
followed by the elements it would still yield, are exactly the elements it
could yield from the starting state, for both branches simultaneously. -/
theorem teeRun_drain :
    ∀ (sch : List Bool) (st : TeeState α),
      (teeRun sch st).1 ++ drain1 (teeRun sch st).2.2 = drain1 st ∧
      (teeRun sch st).2.1 ++ drain2 (teeRun sch st).2.2 = drain2 st := by
  intro sch
  induction sch with
  | nil => intro st; simp [teeRun]
  | cons b sch ih =>
    intro st
    cases b with
    | true =>
      rw [teeRun]
      cases h : teeNext1 st with
      | none => exact ih st
      | some p =>
        obtain ⟨a, st'⟩ := p
        obtain ⟨h1, h2⟩ := teeNext1_drain st a st' h
        refine ⟨?_, ?_⟩
        · rw [List.cons_append, (ih st').1, h1]
        · rw [(ih st').2, h2]
    | false =>
      rw [teeRun]
      cases h : teeNext2 st with
      | none => exact ih st
      | some p =>
        obtain ⟨a, st'⟩ := p
        obtain ⟨h1, h2⟩ := teeNext2_drain st a st' h
        refine ⟨?_, ?_⟩
        · rw [(ih st').1, h2]
        · rw [List.cons_append, (ih st').2, h1]

/-- C9: for every finite producer P and every interleaving in which the two
branches of tee(P) are driven (any schedule of pulls, pulls on an exhausted
branch ignored), the elements branch 1 has yielded followed by those it
would still yield equal exactly collect(P), and likewise for branch 2: each
branch independently collects to the original sequence regardless of the
interleaving order. -/
theorem c9_tee_interleaved (α : Type u) (l : List α) (sch : List Bool) :
    (teeRun sch (teeInit l)).1 ++ drain1 (teeRun sch (teeInit l)).2.2 = l ∧
    (teeRun sch (teeInit l)).2.1 ++ drain2 (teeRun sch (teeInit l)).2.2 = l := by
  have h := teeRun_drain sch (teeInit l)
  simpa [teeInit, drain1, drain2] using h

/-- C10: a failed take or skip is not atomic: whenever fewer elements remain
than requested, both fail (take with RuntimeError, skip with StopIteration)
and afterwards the wrapper state is empty — every element pulled before the
failure is permanently consumed and cannot be re-read. -/
theorem c10_failed_take_skip_exhaust (α : Type u) (l : List α) (n : Int)
    (h : l.length < n.toNat) :
    takeRun n l = (Except.error PyErr.runtimeError, []) ∧
    skipRun n l = (Except.error PyErr.stopIteration, []) :=
  ⟨takeAux_exhaust n.toNat l h, skipAux_exhaust n.toNat l h⟩

/-- C10 witness: two remaining elements, a take or skip of three. -/
theorem c10_failed_take_skip_exhaust_witness :
    ([1, 2] : List Int).length < (3 : Int).toNat ∧
    takeRun 3 ([1, 2] : List Int) = (Except.error PyErr.runtimeError, []) ∧
    skipRun 3 ([1, 2] : List Int) = (Except.error PyErr.stopIteration, []) :=
  ⟨by decide, (c10_failed_take_skip_exhaust Int [1, 2] 3 (by decide)).1,
    (c10_failed_take_skip_exhaust Int [1, 2] 3 (by decide)).2⟩

end AocIter
